import Mathlib

/-!
Verification development for the LiteLLM provider adapter of the `sim`
repository: the model-discovery HTTP route, the provider bootstrap, and the
request orchestrator (`executeRequest`) with its bounded tool-calling loop.

The TypeScript source is embedded shallowly:
- JavaScript truthiness on optional strings / numbers is made explicit
  (`jsOrS`, empty string and `undefined` are falsy);
- `Date.now()` reads are supplied by an environment clock (one observation
  per read point);
- external collaborators (`fetch`, the chat-completion client, `executeTool`,
  `prepareToolExecution`, `prepareToolsWithUsageControl`, `calculateCost`,
  `JSON.parse` of tool arguments) are oracles carried in an environment
  record; the scripted list `responses` plays the chat-completion client,
  and running out of scripted responses models a transport failure;
- `Promise.allSettled` resolves to outcomes in the order of its input array,
  which is how the dispatch of one tool batch is modelled
  (`dispatchBatch` keeps the order of the tool calls in the model response);
- thrown exceptions are `Except.error` values.
-/

namespace LiteLLM

/-! ## JavaScript-semantics helpers -/

/-- JavaScript `a || d` on an optional string: `undefined` and `""` are falsy. -/
def jsOrS : Option String → String → String
  | some s, d => if s = "" then d else s
  | none, d => d

/-- The call `s.replace(/\/$/, '')`: strips one trailing slash (written on the
character list so that it evaluates by kernel reduction). -/
def stripSlash (s : String) : String :=
  match s.data.reverse with
  | '/' :: rest => String.mk rest.reverse
  | _ => s

/-- The call `s.replace(/^litellm\//, '')`: strips one leading `litellm/` namespace. -/
def stripLitellm (s : String) : String :=
  if List.isPrefixOf "litellm/".data s.data then String.mk (s.data.drop 8) else s

/-- JavaScript `trim()` on the character list: leading and trailing whitespace
removed. -/
def trimChars (cs : List Char) : List Char :=
  ((cs.dropWhile Char.isWhitespace).reverse.dropWhile Char.isWhitespace).reverse

/-- One pass of the global regex replace `/```json\n?|\n?```/g` over the
character list; alternatives are tried in the regex's order at each
position, `\n?` greedily. Fuel is the remaining length. -/
def stripFencesGo : Nat → List Char → List Char
  | 0, cs => cs
  | _, [] => []
  | fuel + 1, c :: cs =>
    let s := c :: cs
    if List.isPrefixOf "```json\n".toList s then stripFencesGo fuel (s.drop 8)
    else if List.isPrefixOf "```json".toList s then stripFencesGo fuel (s.drop 7)
    else if List.isPrefixOf "\n```".toList s then stripFencesGo fuel (s.drop 4)
    else if List.isPrefixOf "```".toList s then stripFencesGo fuel (s.drop 3)
    else c :: stripFencesGo fuel cs

/-- The call `content.replace(/```json\n?|\n?```/g, '').trim()`. -/
def stripFences (s : String) : String :=
  String.mk (trimChars (stripFencesGo s.data.length s.data))

/-! ## Model-list HTTP route (part_000, `GET`) -/

/-- Outcome of the upstream `fetch` + `response.json()` in the `try` block:
`.error` is any thrown failure, `.ok` carries `response.ok` and the ids of
`data.data`. -/
structure FetchOut where
  ok : Bool
  status : Nat
  ids : List String
deriving DecidableEq

/-- Environment of the route handler: blacklist state, configuration and
the upstream call's outcome. -/
structure RouteEnv where
  providerBlacklisted : Bool
  modelBlacklist : List String
  baseUrlEnv : Option String
  apiKeyEnv : Option String
  fetchResult : Except String FetchOut

/-- A `NextResponse.json` value: HTTP status plus the `models` array. -/
structure JsonResponse where
  status : Nat
  models : List String
deriving DecidableEq

/-- Modelled from the spec: `filterBlacklistedModels` (imported from
`providers/utils`, not in src) applies a blacklist filter to a model id
list — ids on the blacklist are removed, others kept in order. -/
def filterBlacklistedModels (blacklist models : List String) : List String :=
  models.filter (fun m => !blacklist.contains m)

/-- The route handler `GET` of part_000.  `NextResponse.json(body)` has
status 200; every early-out returns `{models: []}` with that status. -/
def GETmodels (env : RouteEnv) : JsonResponse :=
  if env.providerBlacklisted then { status := 200, models := [] }
  else
    let baseUrl := stripSlash (jsOrS env.baseUrlEnv "")
    if baseUrl = "" then { status := 200, models := [] }
    else
      match env.fetchResult with
      | .error _ => { status := 200, models := [] }
      | .ok f =>
        if !f.ok then { status := 200, models := [] }
        else
          let allModels := f.ids.map (fun id => "litellm/" ++ id)
          { status := 200, models := filterBlacklistedModels env.modelBlacklist allModels }

/-! ## Provider bootstrap (part_001, the provider's startup discovery) -/

/-- Environment of the bootstrap: client/server context, configuration,
and the discovery fetch outcome. -/
structure InitEnv where
  isClientSide : Bool
  baseUrlEnv : Option String
  apiKeyEnv : Option String
  fetchResult : Except String FetchOut

/-- The provider's startup discovery (source name `initialize`, a Lean
keyword).  Returns what was published to the shared providers store:
`none` when `setProviderModels` was never called (client side, no base URL
configured, or a thrown fetch failure), `some []` when the upstream
responded with a non-success status, and `some models` on success.  The
function is total: no path throws. -/
def initializeProvider (env : InitEnv) : Option (List String) :=
  if env.isClientSide then none
  else
    let baseUrl := stripSlash (jsOrS env.baseUrlEnv "")
    if baseUrl = "" then none
    else
      match env.fetchResult with
      | .error _ => none
      | .ok f =>
        if !f.ok then some []
        else some (f.ids.map (fun id => "litellm/" ++ id))

/-! ## Request orchestrator data model (part_001, `executeRequest`) -/

/-- The `tool_call.function` of a model response: name and raw arguments JSON. -/
structure ToolCallFunction where
  name : String
  arguments : String
deriving DecidableEq

/-- One tool call of a model response. -/
structure ToolCall where
  id : String
  function : ToolCallFunction
deriving DecidableEq

/-- The `response.usage` object; every field may be absent. -/
structure Usage where
  prompt_tokens : Option Nat
  completion_tokens : Option Nat
  total_tokens : Option Nat
deriving DecidableEq

/-- The `response.choices[0].message` object (`choices[0]` may be absent). -/
structure RespMessage where
  content : Option String
  tool_calls : Option (List ToolCall)
deriving DecidableEq

/-- One non-streaming chat-completion response as read by the orchestrator. -/
structure ModelResponse where
  message : Option RespMessage
  usage : Option Usage
deriving DecidableEq

/-- The `{success, output?, error?}` object returned by the tool invoker. -/
structure ToolResult where
  success : Bool
  output : Option String := none
  error : Option String := none
deriving DecidableEq

/-- Serialized content of a tool-result message: the raw output on success,
or the structured `{error: true, message, tool}` object on failure. -/
inductive ResultContent where
  | output (o : Option String)
  | errorObj (message : String) (tool : String)
deriving DecidableEq

/-- An entry of the assistant tool-calls message (source lines 396-403). -/
structure AssistantToolCall where
  id : String
  name : String
  arguments : String
deriving DecidableEq

/-- Content of a chat message: plain text, explicit `null`, or the
JSON-serialized tool result (serialization kept structured: it is
injective, so nothing is lost by not flattening it to a string). -/
inductive MsgContent where
  | text (s : String)
  | nullContent
  | jsonResult (r : ResultContent)
deriving DecidableEq

/-- A chat message of the conversation being extended by the loop. -/
structure Message where
  role : String
  content : MsgContent
  tool_call_id : Option String := none
  tool_calls : List AssistantToolCall := []
deriving DecidableEq

/-- A tool definition of the incoming request. -/
structure ToolDefinition where
  id : String
  description : String
  parameters : String
deriving DecidableEq

/-- A `{type:'function', function:{name, description, parameters}}` entry as mapped
from a tool definition (source lines 121-130). -/
structure FnTool where
  name : String
  description : String
  parameters : String
deriving DecidableEq

/-- The resolved tool-choice directive: a string (`"auto"`, `"none"`, ...) or
the forced-function object `{type:'function', function:{name}}`; only the
latter satisfies `typeof toolChoice === 'object'`. -/
inductive ToolChoice where
  | str (s : String)
  | forced (name : String)
deriving DecidableEq

/-- Result of `prepareToolsWithUsageControl` (external collaborator): the
filtered tool list, the resolved tool-choice and the forced-tool ids. -/
structure PreparedTools where
  tools : Option (List FnTool)
  toolChoice : Option ToolChoice
  forcedTools : List String
deriving DecidableEq

/-- The `json_schema` block of `payload.response_format` (source lines 140-151):
`name` defaulted to `"response_schema"`, `strict` defaulted to `true`
unless explicitly `false`; `schema := none` marks the `schema || rf`
fallback to the whole response-format object. -/
structure RespFormatOut where
  name : String
  schema : Option String
  strict : Bool
deriving DecidableEq

/-- The request's optional `responseFormat` value. -/
structure RespFormat where
  name : Option String
  schema : Option String
  strict : Option Bool
deriving DecidableEq

/-- The outbound chat-completion payload. -/
structure Payload where
  model : String
  messages : List Message
  temperature : Option Int
  max_tokens : Option Nat
  response_format : Option RespFormatOut
  tools : Option (List FnTool)
  tool_choice : Option ToolChoice
deriving DecidableEq

/-- The incoming `ProviderRequest`. -/
structure ProviderRequest where
  model : String
  systemPrompt : Option String := none
  context : Option String := none
  messages : Option (List Message) := none
  tools : Option (List ToolDefinition) := none
  responseFormat : Option RespFormat := none
  temperature : Option Int := none
  maxTokens : Option Nat := none
  stream : Bool := false
  apiKey : Option String := none
  azureEndpoint : Option String := none

/-- Running token totals. -/
structure Tokens where
  input : Nat
  output : Nat
  total : Nat
deriving DecidableEq

/-- A cost breakdown as produced by the cost calculator (values kept as
integers in some fixed sub-cent unit; the calculator is an oracle). -/
structure Cost where
  input : Int
  output : Int
  total : Int
deriving DecidableEq

/-- One labelled interval of the timing telemetry. -/
structure TimeSegment where
  type : String
  name : String
  startTime : Int
  endTime : Int
  duration : Int
deriving DecidableEq

/-- One executed tool call's record (timestamps kept as instants; the
source formats them as ISO strings, an injective rendering). -/
structure ToolCallRecord where
  name : String
  arguments : String
  startTime : Int
  endTime : Int
  duration : Int
  result : ResultContent
  success : Bool
deriving DecidableEq

/-- The `timing` block of the buffered provider response. -/
structure ProviderTiming where
  startTime : Int
  endTime : Int
  duration : Int
  modelTime : Int
  toolsTime : Int
  firstResponseTime : Int
  iterations : Nat
  timeSegments : List TimeSegment
deriving DecidableEq

/-- The buffered `ProviderResponse` (source lines 595-611).  The
`ProviderResponse` type itself is not in src; its field set is taken from
that return statement, which carries no cost property — `cost` is modelled
as an `Option` (per the spec's ExecutionResult, which lists a cost
breakdown) and reading it on the buffered result yields `none`
(JavaScript `undefined`). -/
structure ProviderResponse where
  content : String
  model : String
  tokens : Tokens
  toolCalls : Option (List ToolCallRecord)
  toolResults : Option (List (Option String))
  cost : Option Cost
  timing : ProviderTiming
deriving DecidableEq

/-- The initial `execution.output` snapshot of a `StreamingExecution`
(fields absent in the fast path are `Option`s). -/
structure StreamSnapshot where
  content : String
  model : String
  tokens : Tokens
  cost : Cost
  toolCalls : Option (List ToolCallRecord)
  iterations : Option Nat
  timeSegments : List TimeSegment
  modelTime : Option Int
  toolsTime : Option Int
  firstResponseTime : Option Int
deriving DecidableEq

/-- What `executeRequest` hands back on success. -/
inductive Outcome where
  | buffered (r : ProviderResponse)
  | streamed (s : StreamSnapshot)
deriving DecidableEq

/-- The orchestration environment: configuration, external collaborators
and the clock.  `responses` scripts the non-streaming chat-completion
client; call `k` (0-based) observes `modelCallSpan k` as its
(start, end) `Date.now()` pair.  `toolCallSpan iter idx` is the
(start, end) pair of tool call `idx` of batch `iter`; `batchSpan iter` is
the batch's wall-clock pair around the settle-all barrier. -/
structure ExecEnv where
  baseUrlEnv : Option String
  apiKeyEnv : Option String
  prepareTools : List FnTool → Option (List ToolDefinition) → PreparedTools
  responses : List ModelResponse
  parseArgs : String → Except String String
  prepareExec : ToolDefinition → String → String × String
  execTool : String → String → Except String ToolResult
  calculateCost : String → Nat → Nat → Cost
  providerStart : Int
  providerEnd : Int
  modelCallSpan : Nat → Int × Int
  toolCallSpan : Nat → Nat → Int × Int
  batchSpan : Nat → Int × Int
  streamSetupNow : Int
  streamCallFails : Bool

/-- Modelled from the spec: the hard cap of the tool loop ("bounded loop
(hard cap: a fixed maximum iteration count)").  The constant
`MAX_TOOL_ITERATIONS` is imported from the providers package, which is not
in src; 10 stands for the fixed cap. -/
def MAX_TOOL_ITERATIONS : Nat := 10

/-! ## Payload construction (source lines 101-176) -/

/-- Initial message sequence: system prompt (if truthy), context (if
truthy), then the caller-supplied messages (source lines 101-119). -/
def buildMessages (req : ProviderRequest) : List Message :=
  (match req.systemPrompt with
   | some s => if s = "" then [] else [{ role := "system", content := .text s }]
   | none => []) ++
  (match req.context with
   | some s => if s = "" then [] else [{ role := "user", content := .text s }]
   | none => []) ++
  (req.messages.getD [])

/-- The expression `request.tools?.length ? request.tools.map(...) : undefined`
(source lines 121-130). -/
def requestFnTools (req : ProviderRequest) : Option (List FnTool) :=
  match req.tools with
  | some ts =>
    if ts.isEmpty then none
    else some (ts.map (fun t => { name := t.id, description := t.description,
                                  parameters := t.parameters }))
  | none => none

/-- The `payload.response_format` block (source lines 140-151): name falls back
to `"response_schema"` when falsy, `schema || rf` falls back to the whole
object (`schema := none`), `strict` is `rf.strict !== false`. -/
def buildRespFormat (rf : RespFormat) : RespFormatOut :=
  { name := jsOrS rf.name "response_schema"
    schema := match rf.schema with
      | some s => if s = "" then none else some s
      | none => none
    strict := rf.strict ≠ some false }

/-- The base payload (source lines 132-151): model id with the `litellm/`
namespace stripped, messages, optional temperature / max_tokens /
response_format; tools not yet attached. -/
def buildPayload (req : ProviderRequest) : Payload :=
  { model := stripLitellm req.model
    messages := buildMessages req
    temperature := req.temperature
    max_tokens := req.maxTokens
    response_format := req.responseFormat.map buildRespFormat
    tools := none
    tool_choice := none }

/-- Tool attachment (source lines 153-176): tools and tool-choice are put
on the payload only when the prepared set has both a non-empty filtered
list and a tool-choice; returns the payload, the prepared set and
`hasActiveTools`. -/
def attachTools (env : ExecEnv) (req : ProviderRequest) (p : Payload) :
    Payload × Option PreparedTools × Bool :=
  match requestFnTools req with
  | none => (p, none, false)
  | some fn =>
    let prepared := env.prepareTools fn req.tools
    match prepared.tools, prepared.toolChoice with
    | some ft, some tc =>
      if ft.isEmpty then (p, some prepared, false)
      else ({ p with tools := some ft, tool_choice := some tc }, some prepared, true)
    | _, _ => (p, some prepared, false)

/-! ## Content and usage accumulation -/

/-- Strip markdown code fences when a response format was requested. -/
def stripIfFormat (req : ProviderRequest) (s : String) : String :=
  match req.responseFormat with
  | some _ => stripFences s
  | none => s

/-- Initial content extraction (source lines 298-302):
`content = resp.content || ''`, stripped when truthy and a response
format is present. -/
def initialContent (req : ProviderRequest) (resp : ModelResponse) : String :=
  let c := match resp.message with
    | some m => m.content.getD ""
    | none => ""
  if c = "" then c else stripIfFormat req c

/-- In-loop content update (source lines 330-335 and 491-496): overwrite
only when the response's content is truthy. -/
def contentUpdate (req : ProviderRequest) (resp : ModelResponse) (content : String) :
    String :=
  match resp.message with
  | some m =>
    match m.content with
    | some c => if c = "" then content else stripIfFormat req c
    | none => content
  | none => content

/-- Usage accumulation (source lines 498-502): gated on `usage` being
present, each field contributing `x || 0`. -/
def addUsage (t : Tokens) (resp : ModelResponse) : Tokens :=
  match resp.usage with
  | some u =>
    { input := t.input + u.prompt_tokens.getD 0
      output := t.output + u.completion_tokens.getD 0
      total := t.total + u.total_tokens.getD 0 }
  | none => t

/-- The token triple a single response contributes.  The initial
extraction (source lines 304-308) equals `usageOf` of the first
response. -/
def usageOf (resp : ModelResponse) : Tokens :=
  addUsage { input := 0, output := 0, total := 0 } resp

/-- Componentwise addition of token totals. -/
def addTok (a b : Tokens) : Tokens :=
  { input := a.input + b.input, output := a.output + b.output, total := a.total + b.total }

/-- Sum of the reported usage of a list of responses. -/
def sumUsage : List ModelResponse → Tokens
  | [] => { input := 0, output := 0, total := 0 }
  | r :: rs => addTok (usageOf r) (sumUsage rs)

/-- The tool calls of a response; the loop breaks exactly when this list is
empty (source lines 337-339: absent field or empty array). -/
def respToolCalls (resp : ModelResponse) : List ToolCall :=
  match resp.message with
  | some m => m.tool_calls.getD []
  | none => []

/-! ## Forced-tool tracking -/

/-- Modelled from the spec (section 4.2, Forced-Tool Tracker): pure
function of (tool calls produced by the model, current tool-choice
directive, full forced-tool list, previously-used forced tools) to
(the "any forced tool used this round" flag, updated previously-used
list).  `trackForcedToolUsage` is imported from `providers/utils`, which
is not in src.  A forced tool counts as used when its id appears among
the response's tool-call names. -/
def trackForcedToolUsage (toolCallsResponse : List ToolCall) (_toolChoice : ToolChoice)
    (forcedTools usedForcedTools : List String) : Bool × List String :=
  let names := toolCallsResponse.map (fun tc => tc.function.name)
  (names.any (fun n => forcedTools.contains n),
   usedForcedTools ++
     forcedTools.filter (fun t => names.contains t && !usedForcedTools.contains t))

/-- The test `typeof toolChoice === 'object'`: only the forced-function directive is
an object. -/
def isObjectChoice : Option ToolChoice → Bool
  | some (.forced _) => true
  | _ => false

/-- Source `checkForForcedToolUsage` (lines 276-293): runs the tracker only
when the tool-choice is the forced-function object and the response's
`tool_calls` field is present (a JavaScript array is truthy even when
empty); otherwise the flag and list are left unchanged. -/
def checkForcedToolUsage (resp : ModelResponse) (toolChoice : Option ToolChoice)
    (forcedTools : List String) (hasUsed : Bool) (used : List String) :
    Bool × List String :=
  match toolChoice with
  | some (.forced fnName) =>
    match resp.message with
    | some m =>
      match m.tool_calls with
      | some calls => trackForcedToolUsage calls (.forced fnName) forcedTools used
      | none => (hasUsed, used)
    | none => (hasUsed, used)
  | _ => (hasUsed, used)

/-- Tool-choice re-resolution for the next call (source lines 457-470):
when the original choice was the forced object, a forced tool has been
used and forced tools exist, advance to the first forced tool not yet
used, or fall back to `'auto'` when none remain; otherwise keep the
payload's own tool-choice. -/
def nextToolChoice (originalToolChoice : Option ToolChoice) (hasUsedForcedTool : Bool)
    (forcedTools usedForcedTools : List String) (current : Option ToolChoice) :
    Option ToolChoice :=
  if isObjectChoice originalToolChoice && hasUsedForcedTool && !forcedTools.isEmpty then
    match forcedTools.filter (fun t => !usedForcedTools.contains t) with
    | t :: _ => some (.forced t)
    | [] => some (.str "auto")
  else current

/-! ## One tool-call batch (source lines 346-450) -/

/-- The value one settled tool-execution promise fulfills with
(source lines 362-370 and 375-387); `Option.none` is the `return null` of
the unknown-tool path. -/
structure SettledTool where
  toolCallId : String
  toolName : String
  toolParams : String
  result : ToolResult
  startTime : Int
  endTime : Int
  duration : Int
deriving DecidableEq

/-- The body of one tool-execution promise (source lines 348-389):
`JSON.parse` the arguments, look the tool up (unknown tools fulfill with
`null`), prepare and invoke it; any thrown failure (parse, preparation or
invocation) is converted by the `catch` into a fulfilled value whose
result is `{success: false, output: undefined, error: message}` with
empty tool params. -/
def execOneToolCall (env : ExecEnv) (req : ProviderRequest) (iter idx : Nat)
    (tc : ToolCall) : Option SettledTool :=
  let span := env.toolCallSpan iter idx
  let toolName := tc.function.name
  match env.parseArgs tc.function.arguments with
  | .error e =>
    some { toolCallId := tc.id, toolName := toolName, toolParams := ""
           result := { success := false, output := none, error := some e }
           startTime := span.1, endTime := span.2, duration := span.2 - span.1 }
  | .ok toolArgs =>
    match (req.tools.getD []).find? (fun t => t.id = toolName) with
    | none => none
    | some tool =>
      let pe := env.prepareExec tool toolArgs
      match env.execTool toolName pe.2 with
      | .error e =>
        some { toolCallId := tc.id, toolName := toolName, toolParams := ""
               result := { success := false, output := none, error := some e }
               startTime := span.1, endTime := span.2, duration := span.2 - span.1 }
      | .ok result =>
        some { toolCallId := tc.id, toolName := toolName, toolParams := pe.1
               result := result
               startTime := span.1, endTime := span.2, duration := span.2 - span.1 }

/-- Concurrent dispatch of a batch followed by `Promise.allSettled`
(source lines 348, 391): `allSettled` resolves to outcomes in the order of
its input array, so the settled list keeps the order of the tool calls in
the model response regardless of each call's own settle time. -/
def dispatchBatch (env : ExecEnv) (req : ProviderRequest) (iter : Nat) :
    Nat → List ToolCall → List (Option SettledTool)
  | _, [] => []
  | idx, tc :: rest =>
    execOneToolCall env req iter idx tc :: dispatchBatch env req iter (idx + 1) rest

/-- What the settlement loop appends, in order. -/
structure BatchAppend where
  segments : List TimeSegment
  outputs : List (Option String)
  records : List ToolCallRecord
  messages : List Message
deriving DecidableEq

/-- The `resultContent` of one settled call (source lines 420-430): the raw
output on success, the structured `{error: true, message, tool}` object on
failure with the `result.error || 'Tool execution failed'` fallback. -/
def settledContent (v : SettledTool) : ResultContent :=
  if v.result.success then .output v.result.output
  else .errorObj (jsOrS v.result.error "Tool execution failed") v.toolName

/-- The tool TimeSegment one settled call contributes (source lines
412-418), using that call's own start and end timestamps. -/
def settledSegment (v : SettledTool) : TimeSegment :=
  { type := "tool", name := v.toolName, startTime := v.startTime,
    endTime := v.endTime, duration := v.duration }

/-- The ToolCallRecord one settled call contributes (source lines 432-440). -/
def settledRecord (v : SettledTool) : ToolCallRecord :=
  { name := v.toolName, arguments := v.toolParams, startTime := v.startTime,
    endTime := v.endTime, duration := v.duration, result := settledContent v,
    success := v.result.success }

/-- The tool-result message one settled call contributes (source lines
442-446), keyed to that call's id. -/
def settledMessage (v : SettledTool) : Message :=
  { role := "tool", content := .jsonResult (settledContent v),
    tool_call_id := some v.toolCallId }

/-- The settlement loop over `executionResults` (source lines 406-447):
`null` values are skipped; each settled call contributes one tool
TimeSegment (its own start/end), a raw output on success, one
ToolCallRecord and one tool-result message keyed to the call id. -/
def processSettled : List (Option SettledTool) → BatchAppend
  | [] => { segments := [], outputs := [], records := [], messages := [] }
  | none :: rest => processSettled rest
  | some v :: rest =>
    let tail := processSettled rest
    { segments := settledSegment v :: tail.segments
      outputs := (if v.result.success then [v.result.output] else []) ++ tail.outputs
      records := settledRecord v :: tail.records
      messages := settledMessage v :: tail.messages }

/-- The assistant tool-calls message (source lines 393-404): null content,
every tool call of the response listed. -/
def assistantToolCallMsg (calls : List ToolCall) : Message :=
  { role := "assistant", content := .nullContent,
    tool_calls := calls.map (fun tc =>
      { id := tc.id, name := tc.function.name, arguments := tc.function.arguments }) }

/-! ## The tool loop (source lines 329-505) -/

/-- Loop-invariant context: the environment, the request, the original
payload (each iteration's next payload spreads it afresh), the original
tool-choice and the forced-tool list. -/
structure LoopCtx where
  env : ExecEnv
  req : ProviderRequest
  payload : Payload
  originalToolChoice : Option ToolChoice
  forcedTools : List String

/-- The mutable state of one orchestration run; `callPayloads` and
`responsesConsumed` are ghost instrumentation recording each non-streaming
call's outbound payload and the number of scripted responses consumed. -/
structure RunState where
  content : String
  tokens : Tokens
  toolCalls : List ToolCallRecord
  toolResults : List (Option String)
  currentMessages : List Message
  iterationCount : Nat
  modelTime : Int
  toolsTime : Int
  timeSegments : List TimeSegment
  usedForcedTools : List String
  hasUsedForcedTool : Bool
  callPayloads : List Payload
  responsesConsumed : Nat
deriving DecidableEq

/-- State update for one tool batch (source lines 346-450): dispatch and
settle the batch, append the assistant tool-calls message and the settled
results, and accumulate the batch wall-clock into tools time. -/
def afterBatch (ctx : LoopCtx) (st : RunState) (calls : List ToolCall) : RunState :=
  let iter := st.iterationCount
  let batch := processSettled (dispatchBatch ctx.env ctx.req iter 0 calls)
  let bspan := ctx.env.batchSpan iter
  { st with
    currentMessages := st.currentMessages ++ assistantToolCallMsg calls :: batch.messages
    timeSegments := st.timeSegments ++ batch.segments
    toolResults := st.toolResults ++ batch.outputs
    toolCalls := st.toolCalls ++ batch.records
    toolsTime := st.toolsTime + (bspan.2 - bspan.1) }

/-- The next call's payload (source lines 452-470): the original payload
spread afresh with the extended message history and the re-resolved
tool-choice. -/
def nextPayloadOf (ctx : LoopCtx) (st : RunState) : Payload :=
  { ctx.payload with
    messages := st.currentMessages
    tool_choice := nextToolChoice ctx.originalToolChoice st.hasUsedForcedTool
      ctx.forcedTools st.usedForcedTools ctx.payload.tool_choice }

/-- State update around the next model call (source lines 472-504): forced
tool check against the next payload's tool-choice, the model TimeSegment,
model-time and usage accumulation, content update, counter increment; the
ghost trace records the outbound payload and the consumed response. -/
def afterModelCall (ctx : LoopCtx) (st : RunState) (np : Payload) (r : ModelResponse) :
    RunState :=
  let span := ctx.env.modelCallSpan st.responsesConsumed
  let fc := checkForcedToolUsage r np.tool_choice ctx.forcedTools
    st.hasUsedForcedTool st.usedForcedTools
  let thisModelTime := span.2 - span.1
  let segName := "Model response (iteration " ++ toString (st.iterationCount + 1) ++ ")"
  { st with
    hasUsedForcedTool := fc.1
    usedForcedTools := fc.2
    timeSegments := st.timeSegments ++
      [{ type := "model", name := segName, startTime := span.1,
         endTime := span.2, duration := thisModelTime }]
    modelTime := st.modelTime + thisModelTime
    content := contentUpdate ctx.req r st.content
    tokens := addUsage st.tokens r
    iterationCount := st.iterationCount + 1
    callPayloads := st.callPayloads ++ [np]
    responsesConsumed := st.responsesConsumed + 1 }

/-- The loop `while (iterationCount < MAX_TOOL_ITERATIONS)` (source lines 329-505),
with `fuel = MAX_TOOL_ITERATIONS - iterationCount` so that zero fuel is
exactly a false guard.  Each pass: update content (330-335); break when
the response has no tool calls (337-339); run the batch; build the next
payload; issue the next model call — running out of scripted responses is
the thrown transport failure — and advance the state. -/
def runLoop (ctx : LoopCtx) : Nat → RunState → ModelResponse → List ModelResponse →
    Except String RunState
  | 0, st, _, _ => .ok st
  | fuel + 1, st, resp, pending =>
    let st1 := { st with content := contentUpdate ctx.req resp st.content }
    match respToolCalls resp with
    | [] => .ok st1
    | calls =>
      let st2 := afterBatch ctx st1 calls
      let np := nextPayloadOf ctx st2
      match pending with
      | [] => .error "LiteLLM request failed"
      | r :: rest => runLoop ctx fuel (afterModelCall ctx st2 np r) r rest

/-- The run state handed back by the streaming fast path, which executes
no tool loop: only the outbound streaming payload is recorded. -/
def fastPathState (allMessages : List Message) (payload : Payload) : RunState :=
  { content := "", tokens := { input := 0, output := 0, total := 0 }
    toolCalls := [], toolResults := [], currentMessages := allMessages
    iterationCount := 0, modelTime := 0, toolsTime := 0, timeSegments := []
    usedForcedTools := [], hasUsedForcedTool := false
    callPayloads := [payload], responsesConsumed := 0 }

/-- The resolved base URL (source line 90):
`(request.azureEndpoint || env.LITELLM_BASE_URL || '').replace(/\/$/, '')`. -/
def resolvedBaseUrl (env : ExecEnv) (req : ProviderRequest) : String :=
  stripSlash (jsOrS req.azureEndpoint (jsOrS env.baseUrlEnv ""))

/-- The fully prepared outbound payload of the first call. -/
def initPayload (env : ExecEnv) (req : ProviderRequest) : Payload :=
  (attachTools env req (buildPayload req)).1

/-- The prepared tool set of the run. -/
def initPrepared (env : ExecEnv) (req : ProviderRequest) : Option PreparedTools :=
  (attachTools env req (buildPayload req)).2.1

/-- Source `hasActiveTools` of the run. -/
def initHasActiveTools (env : ExecEnv) (req : ProviderRequest) : Bool :=
  (attachTools env req (buildPayload req)).2.2

/-- Source `preparedTools?.forcedTools || []` (line 272). -/
def initForcedTools (env : ExecEnv) (req : ProviderRequest) : List String :=
  ((initPrepared env req).map (fun p => p.forcedTools)).getD []

/-- Source `firstResponseTime` (lines 268, 296). -/
def firstRT (env : ExecEnv) : Int :=
  (env.modelCallSpan 0).2 - (env.modelCallSpan 0).1

/-- The loop context of the run. -/
def initCtx (env : ExecEnv) (req : ProviderRequest) : LoopCtx :=
  { env := env, req := req, payload := initPayload env req
    originalToolChoice := (initPayload env req).tool_choice
    forcedTools := initForcedTools env req }

/-- The run state after the first non-streaming call (source lines
295-327): initial content and tokens, the initial model TimeSegment, and
the first forced-tool check against the original tool-choice. -/
def initState (env : ExecEnv) (req : ProviderRequest) (r0 : ModelResponse) : RunState :=
  let fc0 := checkForcedToolUsage r0 (initPayload env req).tool_choice
    (initForcedTools env req) false []
  { content := initialContent req r0
    tokens := usageOf r0
    toolCalls := [], toolResults := []
    currentMessages := buildMessages req
    iterationCount := 0
    modelTime := firstRT env, toolsTime := 0
    timeSegments :=
      [{ type := "model", name := "Initial response",
         startTime := (env.modelCallSpan 0).1, endTime := (env.modelCallSpan 0).2,
         duration := firstRT env }]
    usedForcedTools := fc0.2, hasUsedForcedTool := fc0.1
    callPayloads := [initPayload env req], responsesConsumed := 1 }

/-- The initial `StreamingExecution` snapshot of the fast path
(source lines 233-263). -/
def mkStreamFast (env : ExecEnv) (req : ProviderRequest) : StreamSnapshot :=
  { content := "", model := req.model
    tokens := { input := 0, output := 0, total := 0 }
    cost := { input := 0, output := 0, total := 0 }
    toolCalls := none, iterations := none
    timeSegments :=
      [{ type := "model", name := "Streaming response",
         startTime := env.providerStart, endTime := env.streamSetupNow,
         duration := env.streamSetupNow - env.providerStart }]
    modelTime := none, toolsTime := none, firstResponseTime := none }

/-- The `StreamingExecution` snapshot of the final streaming call after the
tool loop (source lines 546-585): accumulated tokens, cost computed from
them, tool-call records and the full timing block. -/
def mkStreamFinal (env : ExecEnv) (req : ProviderRequest) (stF : RunState) :
    StreamSnapshot :=
  { content := "", model := req.model, tokens := stF.tokens
    cost := env.calculateCost req.model stF.tokens.input stF.tokens.output
    toolCalls := if stF.toolCalls.length > 0 then some stF.toolCalls else none
    iterations := some (stF.iterationCount + 1)
    timeSegments := stF.timeSegments
    modelTime := some stF.modelTime, toolsTime := some stF.toolsTime
    firstResponseTime := some (firstRT env) }

/-- The buffered provider response (source lines 595-611): the return
object has no cost property, so its `cost` reads back as `none`. -/
def mkBuffered (env : ExecEnv) (req : ProviderRequest) (stF : RunState) :
    ProviderResponse :=
  { content := stF.content, model := req.model, tokens := stF.tokens
    toolCalls := if stF.toolCalls.length > 0 then some stF.toolCalls else none
    toolResults := if stF.toolResults.length > 0 then some stF.toolResults else none
    cost := none
    timing :=
      { startTime := env.providerStart, endTime := env.providerEnd
        duration := env.providerEnd - env.providerStart
        modelTime := stF.modelTime, toolsTime := stF.toolsTime
        firstResponseTime := firstRT env
        iterations := stF.iterationCount + 1
        timeSegments := stF.timeSegments } }

/-- Source `executeRequest` (lines 77-655).  Base-URL resolution and the
missing-configuration throw (90-93); payload construction (101-176); the
streaming-without-tools fast path (182-266); the first non-streaming call
and state initialisation (268-327); the tool loop; then either the final
streaming call folding the accumulated tokens and cost (507-589) or the
buffered provider response (591-611).  The success value pairs the
outcome with the final run state (ghost trace). -/
def executeRequest (env : ExecEnv) (req : ProviderRequest) :
    Except String (Outcome × RunState) :=
  if resolvedBaseUrl env req = "" then
    .error "LITELLM_BASE_URL is required for LiteLLM provider"
  else
    if req.stream && (!(requestFnTools req).isSome || !initHasActiveTools env req) then
      if env.streamCallFails then .error "LiteLLM request failed"
      else .ok (.streamed (mkStreamFast env req),
                fastPathState (buildMessages req) (initPayload env req))
    else
      match env.responses with
      | [] => .error "LiteLLM request failed"
      | r0 :: rest =>
        match runLoop (initCtx env req) MAX_TOOL_ITERATIONS (initState env req r0) r0 rest with
        | .error e => .error e
        | .ok stF =>
          if req.stream then
            if env.streamCallFails then .error "LiteLLM request failed"
            else .ok (.streamed (mkStreamFinal env req stF), stF)
          else .ok (.buffered (mkBuffered env req stF), stF)

/-! ## Run observations -/

/-- Whether a run completed without a thrown failure. -/
def okB : Except String (Outcome × RunState) → Bool
  | .ok _ => true
  | .error _ => false

/-- The buffered provider response of a run, when there is one. -/
def bufferedOf : Except String (Outcome × RunState) → Option ProviderResponse
  | .ok (.buffered r, _) => some r
  | _ => none

/-- The final run state of a successful run. -/
def stateOf : Except String (Outcome × RunState) → Option RunState
  | .ok (_, st) => some st
  | _ => none

/-- Number of tool-loop passes (tool batches) a run executed. -/
def iterationsOf : Except String (Outcome × RunState) → Nat
  | .ok (_, st) => st.iterationCount
  | .error _ => 0

/-- Number of scripted non-streaming responses a run consumed. -/
def consumedOf : Except String (Outcome × RunState) → Nat
  | .ok (_, st) => st.responsesConsumed
  | .error _ => 0

/-- Number of model TimeSegments in a segment list. -/
def modelSegCount (l : List TimeSegment) : Nat :=
  (l.filter (fun s => s.type = "model")).length

/-- Number of tool TimeSegments in a segment list. -/
def toolSegCount (l : List TimeSegment) : Nat :=
  (l.filter (fun s => s.type = "tool")).length

/-- The control projection of a run state: iterations performed and
responses consumed. -/
def ctrl (st : RunState) : Nat × Nat := (st.iterationCount, st.responsesConsumed)

/-- Fused per-pass state transformer of the loop body (content update,
batch, next payload, state advance over the consumed response). -/
def stepState (ctx : LoopCtx) (st : RunState) (resp : ModelResponse)
    (calls : List ToolCall) (r : ModelResponse) : RunState :=
  let st1 := { st with content := contentUpdate ctx.req resp st.content }
  let st2 := afterBatch ctx st1 calls
  afterModelCall ctx st2 (nextPayloadOf ctx st2) r

/-! ## Loop shape lemmas -/

theorem runLoop_zero (ctx : LoopCtx) (st : RunState) (resp : ModelResponse)
    (pending : List ModelResponse) : runLoop ctx 0 st resp pending = .ok st := rfl

theorem runLoop_break (ctx : LoopCtx) (fuel : Nat) (st : RunState)
    (resp : ModelResponse) (pending : List ModelResponse)
    (hf : fuel ≠ 0) (h : respToolCalls resp = []) :
    runLoop ctx fuel st resp pending =
      .ok { st with content := contentUpdate ctx.req resp st.content } := by
  cases fuel with
  | zero => exact absurd rfl hf
  | succ n => simp [runLoop, h]

theorem runLoop_stuck (ctx : LoopCtx) (fuel : Nat) (st : RunState)
    (resp : ModelResponse) (a : ToolCall) (l : List ToolCall)
    (h : respToolCalls resp = a :: l) :
    runLoop ctx (fuel + 1) st resp [] = .error "LiteLLM request failed" := by
  simp [runLoop, h]

theorem runLoop_step (ctx : LoopCtx) (fuel : Nat) (st : RunState)
    (resp : ModelResponse) (a : ToolCall) (l : List ToolCall)
    (r : ModelResponse) (rest : List ModelResponse)
    (h : respToolCalls resp = a :: l) :
    runLoop ctx (fuel + 1) st resp (r :: rest) =
      runLoop ctx fuel (stepState ctx st resp (a :: l) r) r rest := by
  simp [runLoop, h, stepState]

/-! ## Control skeleton -/

/-- Control skeleton of the tool loop: only the branch structure and the
two counters.  It does not depend on the loop context, so no tool result
can influence whether the next model call proceeds. -/
def loopCtrl : Nat → Nat × Nat → ModelResponse → List ModelResponse →
    Except String (Nat × Nat)
  | 0, c, _, _ => .ok c
  | fuel + 1, c, resp, pending =>
    match respToolCalls resp with
    | [] => .ok c
    | _ :: _ =>
      match pending with
      | [] => .error "LiteLLM request failed"
      | r :: rest => loopCtrl fuel (c.1 + 1, c.2 + 1) r rest

theorem ctrl_stepState (ctx : LoopCtx) (st : RunState) (resp : ModelResponse)
    (calls : List ToolCall) (r : ModelResponse) :
    ctrl (stepState ctx st resp calls r) = (st.iterationCount + 1, st.responsesConsumed + 1) :=
  rfl

/-- The loop's control trace is exactly the control skeleton: it is a
function of the fuel, the counters and the response script alone. -/
theorem runLoop_ctrl (ctx : LoopCtx) :
    ∀ (fuel : Nat) (st : RunState) (resp : ModelResponse) (pending : List ModelResponse),
    (runLoop ctx fuel st resp pending).map ctrl = loopCtrl fuel (ctrl st) resp pending := by
  intro fuel
  induction fuel with
  | zero => intro st resp pending; rfl
  | succ n ih =>
    intro st resp pending
    cases h : respToolCalls resp with
    | nil =>
      simp [runLoop, loopCtrl, h, Except.map, ctrl]
    | cons a l =>
      cases pending with
      | nil => simp [runLoop, loopCtrl, h, Except.map]
      | cons r rest =>
        rw [runLoop_step ctx n st resp a l r rest h]
        rw [ih (stepState ctx st resp (a :: l) r) r rest]
        rw [ctrl_stepState]
        simp only [loopCtrl, h]
        rfl

/-- Successful control traces advance both counters together and are
bounded by the fuel. -/
theorem loopCtrl_bound :
    ∀ (fuel : Nat) (c : Nat × Nat) (resp : ModelResponse) (pending : List ModelResponse)
      (c' : Nat × Nat), loopCtrl fuel c resp pending = .ok c' →
      c'.1 ≤ c.1 + fuel ∧ c.1 ≤ c'.1 ∧ c'.1 + c.2 = c.1 + c'.2 := by
  intro fuel
  induction fuel with
  | zero =>
    intro c resp pending c' h
    simp only [loopCtrl] at h
    cases h
    omega
  | succ n ih =>
    intro c resp pending c' h
    simp only [loopCtrl] at h
    cases hr : respToolCalls resp with
    | nil =>
      rw [hr] at h
      cases h
      omega
    | cons a l =>
      rw [hr] at h
      cases pending with
      | nil => cases h
      | cons r rest =>
        have := ih (c.1 + 1, c.2 + 1) r rest c' h
        omega

/-- Chain lemma: when the script ahead is `ts` responses all carrying tool
calls followed by one clean response, the control skeleton performs
exactly `ts.length` passes and stops on the clean response. -/
theorem loopCtrl_chain :
    ∀ (ts : List ModelResponse) (fin : ModelResponse) (rest : List ModelResponse)
      (c : Nat × Nat) (fuel : Nat) (cur : ModelResponse) (pend : List ModelResponse),
      cur :: pend = ts ++ fin :: rest →
      ts.length < fuel →
      (∀ r ∈ ts, respToolCalls r ≠ []) →
      respToolCalls fin = [] →
      loopCtrl fuel c cur pend = .ok (c.1 + ts.length, c.2 + ts.length) := by
  intro ts
  induction ts with
  | nil =>
    intro fin rest c fuel cur pend hchain hlen _ hfin
    injection hchain with hcur hpend
    cases fuel with
    | zero => omega
    | succ n =>
      subst hcur
      simp [loopCtrl, hfin]
  | cons t ts' ih =>
    intro fin rest c fuel cur pend hchain hlen hts hfin
    have hchain' : cur :: pend = t :: (ts' ++ fin :: rest) := hchain
    injection hchain' with hcur hpend
    cases fuel with
    | zero => simp at hlen
    | succ n =>
      subst hcur
      have htc : respToolCalls cur ≠ [] := hts cur (by simp)
      cases hr : respToolCalls cur with
      | nil => exact absurd hr htc
      | cons a l =>
        cases hp : pend with
        | nil =>
          rw [hp] at hpend
          exact absurd hpend.symm (List.append_ne_nil_of_right_ne_nil ts' (by simp))
        | cons r rest' =>
          simp only [loopCtrl, hr]
          have hchain2 : r :: rest' = ts' ++ fin :: rest := by rw [← hp, hpend]
          have hlen' : ts'.length < n := by
            simp only [List.length_cons] at hlen; omega
          have hrec := ih fin rest (c.1 + 1, c.2 + 1) n r rest' hchain2 hlen'
            (fun x hx => hts x (by simp [hx])) hfin
          rw [hrec]
          have h1 : c.1 + 1 + ts'.length = c.1 + (ts'.length + 1) := by omega
          have h2 : c.2 + 1 + ts'.length = c.2 + (ts'.length + 1) := by omega
          rw [h1, h2]
          rfl

/-! ## Segment counting -/

theorem modelSegCount_append (l1 l2 : List TimeSegment) :
    modelSegCount (l1 ++ l2) = modelSegCount l1 + modelSegCount l2 := by
  simp [modelSegCount, List.filter_append]

theorem toolSegCount_append (l1 l2 : List TimeSegment) :
    toolSegCount (l1 ++ l2) = toolSegCount l1 + toolSegCount l2 := by
  simp [toolSegCount, List.filter_append]

/-- Every segment appended by the settlement loop is a tool segment. -/
theorem processSettled_segs_tool :
    ∀ l : List (Option SettledTool), modelSegCount (processSettled l).segments = 0 := by
  intro l
  induction l with
  | nil => rfl
  | cons x rest ih =>
    cases x with
    | none => simpa [processSettled] using ih
    | some v =>
      simp [processSettled, modelSegCount, List.filter_cons, settledSegment] at ih ⊢
      simpa [modelSegCount] using ih

/-- One loop pass appends exactly one model segment. -/
theorem modelSegCount_step (ctx : LoopCtx) (st : RunState) (resp : ModelResponse)
    (calls : List ToolCall) (r : ModelResponse) :
    modelSegCount (stepState ctx st resp calls r).timeSegments =
      modelSegCount st.timeSegments + 1 := by
  show modelSegCount ((st.timeSegments ++ _) ++ [_]) = _
  rw [modelSegCount_append, modelSegCount_append, processSettled_segs_tool]
  rfl

/-- Invariant: across a successful run of the loop, model segments grow
exactly with the iteration counter. -/
theorem runLoop_modelSegs (ctx : LoopCtx) :
    ∀ (fuel : Nat) (st : RunState) (resp : ModelResponse) (pending : List ModelResponse)
      (stF : RunState), runLoop ctx fuel st resp pending = .ok stF →
      modelSegCount stF.timeSegments + st.iterationCount =
        modelSegCount st.timeSegments + stF.iterationCount := by
  intro fuel
  induction fuel with
  | zero =>
    intro st resp pending stF h
    cases h
    rfl
  | succ n ih =>
    intro st resp pending stF h
    cases hr : respToolCalls resp with
    | nil =>
      rw [runLoop_break ctx (n + 1) st resp pending (by omega) hr] at h
      cases h
      rfl
    | cons a l =>
      cases pending with
      | nil => rw [runLoop_stuck ctx n st resp a l hr] at h; cases h
      | cons r rest =>
        rw [runLoop_step ctx n st resp a l r rest hr] at h
        have := ih (stepState ctx st resp (a :: l) r) r rest stF h
        rw [modelSegCount_step] at this
        have hstep : (stepState ctx st resp (a :: l) r).iterationCount
            = st.iterationCount + 1 := rfl
        rw [hstep] at this
        omega

/-! ## Token accumulation -/

theorem addTok_zero_right (t : Tokens) :
    addTok t { input := 0, output := 0, total := 0 } = t := by
  cases t; simp [addTok]

theorem addTok_assoc (a b c : Tokens) :
    addTok (addTok a b) c = addTok a (addTok b c) := by
  cases a; cases b; cases c; simp [addTok]; omega

/-- Usage accumulation is componentwise addition of the response's
contribution. -/
theorem addUsage_eq_addTok (t : Tokens) (r : ModelResponse) :
    addUsage t r = addTok t (usageOf r) := by
  cases t with
  | mk i o tt =>
    cases hu : r.usage with
    | none => simp [addUsage, usageOf, addTok, hu]
    | some u => simp [addUsage, usageOf, addTok, hu]

/-- Invariant: a successful run of the loop adds exactly the usage of the
consumed prefix of the pending script to the running totals. -/
theorem runLoop_tokens (ctx : LoopCtx) :
    ∀ (fuel : Nat) (st : RunState) (resp : ModelResponse) (pending : List ModelResponse)
      (stF : RunState), runLoop ctx fuel st resp pending = .ok stF →
      ∃ k, k ≤ pending.length ∧ stF.responsesConsumed = st.responsesConsumed + k ∧
        stF.tokens = addTok st.tokens (sumUsage (pending.take k)) := by
  intro fuel
  induction fuel with
  | zero =>
    intro st resp pending stF h
    cases h
    exact ⟨0, by simp, rfl, by simp [sumUsage, addTok_zero_right]⟩
  | succ n ih =>
    intro st resp pending stF h
    cases hr : respToolCalls resp with
    | nil =>
      rw [runLoop_break ctx (n + 1) st resp pending (by omega) hr] at h
      cases h
      exact ⟨0, by simp, rfl, by simp [sumUsage, addTok_zero_right]⟩
    | cons a l =>
      cases pending with
      | nil => rw [runLoop_stuck ctx n st resp a l hr] at h; cases h
      | cons r rest =>
        rw [runLoop_step ctx n st resp a l r rest hr] at h
        obtain ⟨k, hk, hcons, htok⟩ := ih (stepState ctx st resp (a :: l) r) r rest stF h
        refine ⟨k + 1, by simpa using Nat.succ_le_succ hk, ?_, ?_⟩
        · have : (stepState ctx st resp (a :: l) r).responsesConsumed
              = st.responsesConsumed + 1 := rfl
          omega
        · have hst : (stepState ctx st resp (a :: l) r).tokens = addUsage st.tokens r := rfl
          rw [htok, hst, addUsage_eq_addTok, addTok_assoc]
          rfl

/-- The claimed token invariant: total equals input plus output. -/
def consistentTok (t : Tokens) : Prop := t.total = t.input + t.output

instance (t : Tokens) : Decidable (consistentTok t) := by
  unfold consistentTok; infer_instance

theorem addTok_consistent {a b : Tokens} (ha : consistentTok a) (hb : consistentTok b) :
    consistentTok (addTok a b) := by
  cases a; cases b
  simp [consistentTok, addTok] at *
  omega

theorem sumUsage_consistent :
    ∀ l : List ModelResponse, (∀ r ∈ l, consistentTok (usageOf r)) →
      consistentTok (sumUsage l) := by
  intro l
  induction l with
  | nil => intro _; simp [sumUsage, consistentTok]
  | cons r rest ih =>
    intro h
    exact addTok_consistent (h r (by simp)) (ih (fun x hx => h x (by simp [hx])))

/-! ## Batch dispatch order and per-call outcomes -/

/-- Whether a tool call leaves a record: always, except when its arguments
parse and its name matches no tool id of the request. -/
def keepsRecord (env : ExecEnv) (req : ProviderRequest) (tc : ToolCall) : Bool :=
  match env.parseArgs tc.function.arguments with
  | .error _ => true
  | .ok _ => ((req.tools.getD []).find? (fun t => t.id = tc.function.name)).isSome

theorem execOne_none_iff (env : ExecEnv) (req : ProviderRequest) (iter idx : Nat)
    (tc : ToolCall) :
    execOneToolCall env req iter idx tc = none ↔ keepsRecord env req tc = false := by
  cases hp : env.parseArgs tc.function.arguments with
  | error e => simp [execOneToolCall, keepsRecord, hp]
  | ok args =>
    cases hf : (req.tools.getD []).find? (fun t => t.id = tc.function.name) with
    | none => simp [execOneToolCall, keepsRecord, hp, hf]
    | some tool =>
      cases he : env.execTool tc.function.name (env.prepareExec tool args).2 with
      | error m => simp [execOneToolCall, keepsRecord, hp, hf, he]
      | ok res => simp [execOneToolCall, keepsRecord, hp, hf, he]

theorem execOne_some_fields (env : ExecEnv) (req : ProviderRequest) (iter idx : Nat)
    (tc : ToolCall) (v : SettledTool)
    (h : execOneToolCall env req iter idx tc = some v) :
    v.toolName = tc.function.name ∧ v.toolCallId = tc.id := by
  cases hp : env.parseArgs tc.function.arguments with
  | error e =>
    simp only [execOneToolCall, hp] at h
    injection h with h'
    exact ⟨by rw [← h'], by rw [← h']⟩
  | ok args =>
    cases hf : (req.tools.getD []).find? (fun t => t.id = tc.function.name) with
    | none => simp only [execOneToolCall, hp, hf] at h; cases h
    | some tool =>
      cases he : env.execTool tc.function.name (env.prepareExec tool args).2 with
      | error m =>
        simp only [execOneToolCall, hp, hf, he] at h
        injection h with h'
        exact ⟨by rw [← h'], by rw [← h']⟩
      | ok res =>
        simp only [execOneToolCall, hp, hf, he] at h
        injection h with h'
        exact ⟨by rw [← h'], by rw [← h']⟩

/-- Skipped (`null`) settlements leave the batch output untouched. -/
theorem processSettled_skip_none :
    ∀ l1 l2 : List (Option SettledTool),
      processSettled (l1 ++ none :: l2) = processSettled (l1 ++ l2) := by
  intro l1
  induction l1 with
  | nil => intro l2; rfl
  | cons x rest ih =>
    intro l2
    cases x with
    | none => simp [processSettled, ih]
    | some v => simp [processSettled, ih]

/-- A settled call contributes its record regardless of what surrounds it:
a failed sibling cannot suppress it. -/
theorem processSettled_records_append :
    ∀ (l1 l2 : List (Option SettledTool)) (v : SettledTool),
      (processSettled (l1 ++ some v :: l2)).records =
        (processSettled l1).records ++ settledRecord v :: (processSettled l2).records := by
  intro l1
  induction l1 with
  | nil => intro l2 v; rfl
  | cons x rest ih =>
    intro l2 v
    cases x with
    | none => simp [processSettled, ih]
    | some w => simp [processSettled, ih]

/-- Dispatch order is preserved end to end: the records, tool segments
and tool-result messages of one batch list exactly the calls that keep a
record, in the order the model's response listed them — never reordered by
settle times, which do not occur in the right-hand sides. -/
theorem dispatchBatch_order (env : ExecEnv) (req : ProviderRequest) (iter : Nat) :
    ∀ (calls : List ToolCall) (idx : Nat),
      (processSettled (dispatchBatch env req iter idx calls)).records.map
          (fun rc => rc.name) =
        (calls.filter (keepsRecord env req)).map (fun tc => tc.function.name) ∧
      (processSettled (dispatchBatch env req iter idx calls)).segments.map
          (fun s => s.name) =
        (calls.filter (keepsRecord env req)).map (fun tc => tc.function.name) ∧
      (processSettled (dispatchBatch env req iter idx calls)).messages.map
          (fun m => m.tool_call_id) =
        (calls.filter (keepsRecord env req)).map (fun tc => some tc.id) := by
  intro calls
  induction calls with
  | nil => intro idx; exact ⟨rfl, rfl, rfl⟩
  | cons tc rest ih =>
    intro idx
    obtain ⟨ih1, ih2, ih3⟩ := ih (idx + 1)
    cases hx : execOneToolCall env req iter idx tc with
    | none =>
      have hk : keepsRecord env req tc = false := (execOne_none_iff env req iter idx tc).1 hx
      simp only [dispatchBatch, hx, processSettled, List.filter_cons, hk]
      exact ⟨ih1, ih2, ih3⟩
    | some v =>
      have hk : keepsRecord env req tc = true := by
        cases h : keepsRecord env req tc with
        | false => rw [(execOne_none_iff env req iter idx tc).2 h] at hx; cases hx
        | true => rfl
      obtain ⟨hname, hid⟩ := execOne_some_fields env req iter idx tc v hx
      simp only [dispatchBatch, hx, processSettled, List.filter_cons, hk, if_pos,
        List.map_cons, settledRecord, settledSegment, settledMessage]
      exact ⟨by rw [hname, ih1], by rw [hname, ih2], by rw [hid, ih3]⟩

/-! ## Unfolding the orchestrator on the buffered path -/

/-- On a configured, non-streaming request with at least one scripted
response, the orchestrator is the tool loop wrapped into the buffered
provider response. -/
theorem executeRequest_buffered (env : ExecEnv) (req : ProviderRequest)
    (r0 : ModelResponse) (rest : List ModelResponse)
    (hb : resolvedBaseUrl env req ≠ "") (hs : req.stream = false)
    (hr : env.responses = r0 :: rest) :
    executeRequest env req =
      match runLoop (initCtx env req) MAX_TOOL_ITERATIONS (initState env req r0) r0 rest with
      | .error e => .error e
      | .ok stF => .ok (.buffered (mkBuffered env req stF), stF) := by
  simp only [executeRequest, hb, hs, hr, if_neg hb]
  simp

/-- Case analysis of a successful run: either the streaming fast path was
taken (no loop), or the tool loop ran on the scripted responses and
produced the final state. -/
theorem executeRequest_ok_state (env : ExecEnv) (req : ProviderRequest) (out : Outcome)
    (stF : RunState) (h : executeRequest env req = .ok (out, stF)) :
    stF = fastPathState (buildMessages req) (initPayload env req) ∨
    ∃ r0 rest, env.responses = r0 :: rest ∧
      runLoop (initCtx env req) MAX_TOOL_ITERATIONS (initState env req r0) r0 rest =
        .ok stF := by
  simp only [executeRequest] at h
  split at h
  · cases h
  · split at h
    · split at h
      · cases h
      · left
        injection h with h'
        exact (congrArg Prod.snd h').symm
    · split at h
      · cases h
      · rename_i _x r0 rest heq
        split at h
        · cases h
        · rename_i _e stF' hrl
          right
          refine ⟨r0, rest, heq, ?_⟩
          split at h
          · split at h
            · cases h
            · injection h with h'
              have h2 : stF' = stF := congrArg Prod.snd h'
              rw [hrl, h2]
          · injection h with h'
            have h2 : stF' = stF := congrArg Prod.snd h'
            rw [hrl, h2]

/-! ## Concrete fixtures -/

/-- A baseline orchestration environment for concrete runs. -/
def baseEnv : ExecEnv :=
  { baseUrlEnv := some "http://litellm.local/"
    apiKeyEnv := none
    prepareTools := fun fn _ =>
      { tools := some fn, toolChoice := some (ToolChoice.str "auto"), forcedTools := [] }
    responses := []
    parseArgs := fun _ => .ok "args"
    prepareExec := fun t a => (t.id ++ ":" ++ a, a)
    execTool := fun n _ => .ok { success := true, output := some ("out-" ++ n) }
    calculateCost := fun _ i o => { input := i, output := o, total := i + o }
    providerStart := 0
    providerEnd := 100
    modelCallSpan := fun k => (Int.ofNat (20 * k), Int.ofNat (20 * k + 5))
    toolCallSpan := fun _ idx => if idx = 0 then ((0 : Int), (10 : Int)) else ((2 : Int), (5 : Int))
    batchSpan := fun _ => ((0 : Int), (12 : Int))
    streamSetupNow := 1
    streamCallFails := false }

def tcA : ToolCall := { id := "c1", function := { name := "a", arguments := "\x7b\x7d" } }

def tcB : ToolCall := { id := "c2", function := { name := "b", arguments := "\x7b\x7d" } }

def ghostCall : ToolCall := { id := "c9", function := { name := "ghost", arguments := "\x7b" } }

def toolDefA : ToolDefinition := { id := "a", description := "da", parameters := "pa" }

def toolDefB : ToolDefinition := { id := "b", description := "db", parameters := "pb" }

/-- A response carrying two tool calls, dispatched in the order a, b. -/
def respTools : ModelResponse :=
  { message := some { content := none, tool_calls := some [tcA, tcB] }
    usage := some { prompt_tokens := some 3, completion_tokens := some 4, total_tokens := some 7 } }

/-- A clean final response: content, no tool calls. -/
def respClean : ModelResponse :=
  { message := some { content := some "done", tool_calls := none }
    usage := some { prompt_tokens := some 10, completion_tokens := some 1, total_tokens := some 11 } }

/-- A response carrying one tool call whose name matches no tool. -/
def respGhost : ModelResponse :=
  { message := some { content := none, tool_calls := some [ghostCall] }
    usage := some { prompt_tokens := some 2, completion_tokens := some 2, total_tokens := some 4 } }

/-- A response whose reported usage is inconsistent: 5 is not 1 + 2. -/
def respBadUsage : ModelResponse :=
  { message := some { content := some "hi", tool_calls := none }
    usage := some { prompt_tokens := some 1, completion_tokens := some 2, total_tokens := some 5 } }

/-- A plain request: `litellm/` namespaced model, no tools, not streaming. -/
def reqPlain : ProviderRequest := { model := "litellm/gpt-4" }

/-- A request offering the two tools a and b. -/
def reqTwoTools : ProviderRequest :=
  { model := "litellm/gpt-4", tools := some [toolDefA, toolDefB] }

/-! ## C1 -/

/-- Environment of the C1 counterexample: tool a is dispatched first but
settles last (its end time 10 is after b's end time 5). -/
def envC1 : ExecEnv := { baseEnv with responses := [respTools, respClean] }

/-- C1 counterexample.  The claim says sibling ToolCallRecords, tool
TimeSegments and tool-result messages are appended in settle
(completion) order.  In this concrete run call a (dispatched first)
settles at time 10, after call b settles at time 5; settle order would
append b before a, yet the run appends a before b — dispatch order. -/
theorem C1_counterexample :
    (stateOf (executeRequest envC1 reqTwoTools)).map
        (fun st => st.toolCalls.map (fun c => (c.name, c.endTime))) =
      some [("a", 10), ("b", 5)] ∧
    (stateOf (executeRequest envC1 reqTwoTools)).map
        (fun st => (st.timeSegments.filter (fun s => s.type = "tool")).map
          (fun s => (s.name, s.endTime))) =
      some [("a", 10), ("b", 5)] ∧
    ¬ ((10 : Int) ≤ 5) := by
  refine ⟨by decide, by decide, by decide⟩

/-- C1 (corrected).  For every tool-call batch, the ToolCallRecords, tool
TimeSegments and tool-result messages of sibling tool calls are appended
in the dispatch order given by the model's response (restricted to the
calls that keep a record), regardless of settle times:
`Promise.allSettled` yields outcomes in input order and the settlement
loop walks that array.  The right-hand sides mention no clock at all. -/
theorem C1_theorem (env : ExecEnv) (req : ProviderRequest) (iter : Nat)
    (calls : List ToolCall) :
    (processSettled (dispatchBatch env req iter 0 calls)).records.map
        (fun rc => rc.name) =
      (calls.filter (keepsRecord env req)).map (fun tc => tc.function.name) ∧
    (processSettled (dispatchBatch env req iter 0 calls)).segments.map
        (fun s => s.name) =
      (calls.filter (keepsRecord env req)).map (fun tc => tc.function.name) ∧
    (processSettled (dispatchBatch env req iter 0 calls)).messages.map
        (fun m => m.tool_call_id) =
      (calls.filter (keepsRecord env req)).map (fun tc => some tc.id) :=
  dispatchBatch_order env req iter calls 0

/-! ## C10 -/

/-- Environment of the C10 counterexample: the arguments of the unknown
tool call fail to parse, so the `catch` produces a failed record. -/
def envC10 : ExecEnv :=
  { baseEnv with
    responses := [respGhost, respClean]
    parseArgs := fun _ => .error "Unexpected end of JSON input" }

/-- C10 counterexample.  The claim says every tool call whose name matches
no tool id is silently dropped with no ToolCallRecord and no tool
TimeSegment.  Here the unknown call `ghost` has malformed arguments;
`JSON.parse` runs before the tool lookup, its exception is caught, and a
failed ToolCallRecord and a tool TimeSegment are appended for `ghost`. -/
theorem C10_counterexample :
    (stateOf (executeRequest envC10 reqTwoTools)).map
        (fun st => st.toolCalls.map (fun c => (c.name, c.success))) =
      some [("ghost", false)] ∧
    (stateOf (executeRequest envC10 reqTwoTools)).map
        (fun st => toolSegCount st.timeSegments) = some 1 := by
  refine ⟨by decide, by decide⟩

/-- C10 (corrected).  A model tool call whose name matches no tool id is
silently dropped — no record, no segment, no tool-result message — only
when its arguments string parses as JSON; the settlement loop skips the
`null` settlement entirely, while the assistant tool-calls message still
lists every call id of the response. -/
theorem C10_theorem :
    (∀ (env : ExecEnv) (req : ProviderRequest) (iter idx : Nat) (tc : ToolCall)
       (args : String),
       env.parseArgs tc.function.arguments = .ok args →
       (req.tools.getD []).find? (fun t => t.id = tc.function.name) = none →
       execOneToolCall env req iter idx tc = none) ∧
    (∀ (l1 l2 : List (Option SettledTool)),
       processSettled (l1 ++ none :: l2) = processSettled (l1 ++ l2)) ∧
    (∀ calls : List ToolCall,
       (assistantToolCallMsg calls).tool_calls.map (fun a => a.id) =
         calls.map (fun tc => tc.id)) := by
  refine ⟨?_, processSettled_skip_none, ?_⟩
  · intro env req iter idx tc args h1 h2
    simp [execOneToolCall, h1, h2]
  · intro calls
    simp [assistantToolCallMsg]

/-- C10 witness: a well-formed unknown call is dropped in a concrete
setting. -/
theorem C10_witness :
    execOneToolCall baseEnv reqTwoTools 0 0 ghostCall = none :=
  C10_theorem.1 baseEnv reqTwoTools 0 0 ghostCall "args" rfl (by decide)

/-! ## C2 -/

/-- Environment of the C2 counterexample: one response whose reported
usage has `total_tokens = 5` but `prompt + completion = 3`. -/
def envC2 : ExecEnv := { baseEnv with responses := [respBadUsage] }

/-- C2 counterexample.  The claim says `total = input + output` holds
after every accumulation step.  The accumulator copies the response's
`total_tokens` field verbatim instead of computing it, so a response
reporting `{prompt: 1, completion: 2, total: 5}` yields running totals
`(1, 2, 5)` with `5 ≠ 1 + 2`. -/
theorem C2_counterexample :
    (stateOf (executeRequest envC2 reqPlain)).map
        (fun st => (st.tokens.input, st.tokens.output, st.tokens.total)) =
      some (1, 2, 5) ∧
    ¬ ((5 : Nat) = 1 + 2) := by
  refine ⟨by decide, by decide⟩

/-- C2 (corrected).  Token totals are strictly additive across
iterations: a successful run's totals are exactly the componentwise sum
of the reported usage of the consumed responses (missing fields reading
as 0).  The invariant `total = input + output` holds only under the
additional hypothesis that every response's own reported usage satisfies
it; the code copies `total_tokens` without recomputing it. -/
theorem C2_theorem (env : ExecEnv) (req : ProviderRequest) (out : Outcome)
    (stF : RunState) (h : executeRequest env req = .ok (out, stF)) :
    stF.tokens = sumUsage (env.responses.take stF.responsesConsumed) ∧
    ((∀ r ∈ env.responses, consistentTok (usageOf r)) → consistentTok stF.tokens) := by
  rcases executeRequest_ok_state env req out stF h with hfastc | ⟨r0, rest, hr, hrl⟩
  · subst hfastc
    exact ⟨rfl, fun _ => by simp [fastPathState, consistentTok]⟩
  · obtain ⟨k, hk, hcons, htok⟩ :=
      runLoop_tokens (initCtx env req) MAX_TOOL_ITERATIONS (initState env req r0)
        r0 rest stF hrl
    have hcons1 : stF.responsesConsumed = k + 1 := by
      have : (initState env req r0).responsesConsumed = 1 := rfl
      omega
    have htake : env.responses.take stF.responsesConsumed = r0 :: rest.take k := by
      rw [hr, hcons1]
      rfl
    have hsum : stF.tokens = sumUsage (r0 :: rest.take k) := by
      rw [htok]
      have hinit : (initState env req r0).tokens = usageOf r0 := rfl
      rw [hinit]
      rfl
    constructor
    · rw [htake, hsum]
    · intro hall
      rw [hsum]
      refine sumUsage_consistent _ (fun x hx => hall x ?_)
      rw [hr]
      rcases List.mem_cons.1 hx with hx0 | hxmem
      · exact hx0 ▸ List.mem_cons_self ..
      · exact List.mem_cons_of_mem _ (List.take_subset _ _ hxmem)

/-- Environment of the C2 witness: one consistent response. -/
def envW2 : ExecEnv := { baseEnv with responses := [respClean] }

def runW2 : Except String (Outcome × RunState) := executeRequest envW2 reqPlain

def outW2 : Outcome :=
  match runW2 with
  | .ok (o, _) => o
  | .error _ => .buffered (mkBuffered envW2 reqPlain (fastPathState [] (buildPayload reqPlain)))

def stW2 : RunState :=
  match runW2 with
  | .ok (_, st) => st
  | .error _ => fastPathState [] (buildPayload reqPlain)

/-- C2 witness: a concrete consistent run satisfies both conclusions. -/
theorem C2_witness :
    stW2.tokens = sumUsage (envW2.responses.take stW2.responsesConsumed) ∧
    consistentTok stW2.tokens := by
  have h : executeRequest envW2 reqPlain = .ok (outW2, stW2) := by rfl
  have hc := C2_theorem envW2 reqPlain outW2 stW2 h
  exact ⟨hc.1, hc.2 (by decide)⟩

/-! ## C3 -/

/-- Environment of the C3 counterexample and witness: a clean no-tools
run. -/
def envC3 : ExecEnv := { baseEnv with responses := [respClean] }

/-- C3 counterexample.  The claim says the buffered result of a no-tools
non-streaming request contains content, tokens, cost and timing.  In this
concrete run the request succeeds with `iterations = 1`, but the returned
object carries no cost property at all: reading `cost` yields
`undefined` (`none`), while the streaming paths do return cost. -/
theorem C3_counterexample :
    (bufferedOf (executeRequest envC3 reqPlain)).map
        (fun r => (r.cost, r.timing.iterations)) = some (none, 1) := by
  decide

/-- C3 (corrected).  For a request with zero tool definitions and
streaming disabled, when the model's response carries no tool calls, the
orchestrator strips the `litellm/` prefix from the model id in the
outbound payload, succeeds with a buffered result reporting
`iterations = 1`, content and tokens and timing, no tool TimeSegments —
and no cost field (the buffered return object has no cost property). -/
theorem C3_theorem (env : ExecEnv) (req : ProviderRequest) (r : ModelResponse)
    (rest : List ModelResponse)
    (hb : resolvedBaseUrl env req ≠ "") (hs : req.stream = false)
    (ht : req.tools = none ∨ req.tools = some [])
    (hr : env.responses = r :: rest) (hrt : respToolCalls r = []) :
    ∃ res stF, executeRequest env req = .ok (.buffered res, stF) ∧
      res.timing.iterations = 1 ∧
      res.cost = none ∧
      toolSegCount res.timing.timeSegments = 0 ∧
      res.tokens = usageOf r ∧
      stF.callPayloads.map (fun p => p.model) = [stripLitellm req.model] := by
  have hft : requestFnTools req = none := by
    rcases ht with h | h <;> simp [requestFnTools, h]
  have hpay : initPayload env req = buildPayload req := by
    simp [initPayload, attachTools, hft]
  rw [executeRequest_buffered env req r rest hb hs hr]
  rw [runLoop_break (initCtx env req) MAX_TOOL_ITERATIONS (initState env req r) r rest
    (by decide) hrt]
  refine ⟨_, _, rfl, rfl, rfl, rfl, rfl, ?_⟩
  show [(initPayload env req).model] = [stripLitellm req.model]
  rw [hpay]
  rfl

/-- C3 witness: the corrected statement at the concrete clean run. -/
theorem C3_witness :
    ∃ res stF, executeRequest envC3 reqPlain = .ok (.buffered res, stF) ∧
      res.timing.iterations = 1 ∧
      res.cost = none ∧
      toolSegCount res.timing.timeSegments = 0 ∧
      res.tokens = usageOf respClean ∧
      stF.callPayloads.map (fun p => p.model) = [stripLitellm reqPlain.model] :=
  C3_theorem envC3 reqPlain respClean [] (by decide) rfl (Or.inl rfl) rfl (by decide)

/-! ## C4 -/

/-- Environment of the C4 counterexample: no base endpoint configured. -/
def envC4 : ExecEnv := { baseEnv with baseUrlEnv := none }

/-- C4 counterexample.  The claim says configuration absence silently
degrades and never throws on every code path including request
execution; but `executeRequest` throws
`LITELLM_BASE_URL is required for LiteLLM provider` before its `try`
block when no base endpoint is configured. -/
theorem C4_counterexample :
    executeRequest envC4 reqPlain =
      .error "LITELLM_BASE_URL is required for LiteLLM provider" := by
  rfl

/-- C4 (corrected).  Configuration absence silently degrades to empty
capability without throwing for discovery (the bootstrap publishes
nothing and returns) and for the `/models` route (status 200, empty
list); request execution instead throws an error demanding
`LITELLM_BASE_URL`. -/
theorem C4_theorem (envE : ExecEnv) (req : ProviderRequest) (envI : InitEnv)
    (envR : RouteEnv)
    (hE : resolvedBaseUrl envE req = "")
    (hI : stripSlash (jsOrS envI.baseUrlEnv "") = "")
    (hR : stripSlash (jsOrS envR.baseUrlEnv "") = "") :
    executeRequest envE req = .error "LITELLM_BASE_URL is required for LiteLLM provider" ∧
    initializeProvider envI = none ∧
    GETmodels envR = { status := 200, models := [] } := by
  refine ⟨by simp [executeRequest, hE], ?_, ?_⟩
  · cases h : envI.isClientSide <;> simp [initializeProvider, h, hI]
  · cases h : envR.providerBlacklisted <;> simp [GETmodels, h, hR]

/-- Bootstrap environment of the C4 witness. -/
def envI4 : InitEnv :=
  { isClientSide := false, baseUrlEnv := none, apiKeyEnv := none
    fetchResult := .error "network" }

/-- Route environment of the C4 witness. -/
def envR4 : RouteEnv :=
  { providerBlacklisted := false, modelBlacklist := [], baseUrlEnv := none
    apiKeyEnv := none, fetchResult := .error "network" }

/-- C4 witness: the corrected statement at concrete unconfigured
environments. -/
theorem C4_witness :
    executeRequest envC4 reqPlain =
      .error "LITELLM_BASE_URL is required for LiteLLM provider" ∧
    initializeProvider envI4 = none ∧
    GETmodels envR4 = { status := 200, models := [] } :=
  C4_theorem envC4 reqPlain envI4 envR4 rfl rfl rfl

/-! ## C5 -/

/-- C5 (confirmed; forced-tool tracker modelled from the spec).  Once the
forced tool of the current directive has appeared in a response's tool
calls, the tracker reports the forced use and marks the tool used, and
the next call's tool-choice targets the first remaining forced tool — the
used one is no longer among the remaining — falling back to automatic
choice when none remain. -/
theorem C5_theorem (calls : List ToolCall) (f : String) (forcedTools used : List String)
    (cur : Option ToolChoice) (flag : Bool) (used' : List String)
    (hf : f ∈ forcedTools)
    (happ : f ∈ calls.map (fun tc => tc.function.name))
    (htr : trackForcedToolUsage calls (ToolChoice.forced f) forcedTools used =
      (flag, used')) :
    flag = true ∧ f ∈ used' ∧
    f ∉ forcedTools.filter (fun t => !used'.contains t) ∧
    nextToolChoice (some (ToolChoice.forced f)) flag forcedTools used' cur =
      (match forcedTools.filter (fun t => !used'.contains t) with
       | t :: _ => some (ToolChoice.forced t)
       | [] => some (ToolChoice.str "auto")) := by
  have hflag : flag = true := by
    have h1 : flag = (calls.map (fun tc => tc.function.name)).any
        (fun n => forcedTools.contains n) := by
      have := congrArg Prod.fst htr
      simpa [trackForcedToolUsage] using this.symm
    rw [h1, List.any_eq_true]
    exact ⟨f, happ, by simpa using hf⟩
  have hused : used' = used ++ forcedTools.filter
      (fun t => (calls.map (fun tc => tc.function.name)).contains t && !used.contains t) := by
    have := congrArg Prod.snd htr
    simpa [trackForcedToolUsage] using this.symm
  have hmem : f ∈ used' := by
    rw [hused]
    by_cases hu : f ∈ used
    · exact List.mem_append_left _ hu
    · refine List.mem_append_right _ (List.mem_filter.2 ⟨hf, ?_⟩)
      simp [hu, happ]
  have hnot : f ∉ forcedTools.filter (fun t => !used'.contains t) := by
    intro hcontra
    have := (List.mem_filter.1 hcontra).2
    simp at this
    exact this hmem
  refine ⟨hflag, hmem, hnot, ?_⟩
  have hne : forcedTools ≠ [] := List.ne_nil_of_mem hf
  simp [nextToolChoice, isObjectChoice, hflag, List.isEmpty_iff, hne]

def lookupCall : ToolCall :=
  { id := "c5", function := { name := "lookup", arguments := "\x7b\x7d" } }

/-- C5 witness: with forced tools `lookup` then `audit`, a response
calling `lookup` rotates the next tool-choice to force `audit`. -/
theorem C5_witness :
    (true : Bool) = true ∧ "lookup" ∈ ["lookup"] ∧
    "lookup" ∉ (["lookup", "audit"].filter (fun t => !(["lookup"].contains t))) ∧
    nextToolChoice (some (ToolChoice.forced "lookup")) true ["lookup", "audit"]
        ["lookup"] (some (ToolChoice.forced "lookup")) =
      (match ["lookup", "audit"].filter (fun t => !(["lookup"].contains t)) with
       | t :: _ => some (ToolChoice.forced t)
       | [] => some (ToolChoice.str "auto")) :=
  C5_theorem [lookupCall] "lookup" ["lookup", "audit"] [] (some (ToolChoice.forced "lookup"))
    true ["lookup"] (by decide) (by decide) (by decide)

/-! ## C6 -/

/-- C6 (confirmed).  A tool invocation that throws is converted into the
structured settled value whose result is
`{success: false, output: undefined, error: message}` recorded against
that call's id and name; a settled call contributes its record regardless
of its surroundings, so a failure suppresses no sibling record; and the
loop's control trace (whether each subsequent model call proceeds, and
how many) is the same for any two loop contexts, in particular for any
two tool invokers. -/
theorem C6_theorem :
    (∀ (env : ExecEnv) (req : ProviderRequest) (iter idx : Nat) (tc : ToolCall)
       (tool : ToolDefinition) (args msg : String),
       env.parseArgs tc.function.arguments = .ok args →
       (req.tools.getD []).find? (fun t => t.id = tc.function.name) = some tool →
       env.execTool tc.function.name (env.prepareExec tool args).2 = .error msg →
       execOneToolCall env req iter idx tc = some
         { toolCallId := tc.id, toolName := tc.function.name, toolParams := ""
           result := { success := false, output := none, error := some msg }
           startTime := (env.toolCallSpan iter idx).1
           endTime := (env.toolCallSpan iter idx).2
           duration := (env.toolCallSpan iter idx).2 - (env.toolCallSpan iter idx).1 }) ∧
    (∀ (l1 l2 : List (Option SettledTool)) (v : SettledTool),
       (processSettled (l1 ++ some v :: l2)).records =
         (processSettled l1).records ++ settledRecord v :: (processSettled l2).records) ∧
    (∀ (ctx1 ctx2 : LoopCtx) (fuel : Nat) (st : RunState) (resp : ModelResponse)
       (pending : List ModelResponse),
       (runLoop ctx1 fuel st resp pending).map ctrl =
         (runLoop ctx2 fuel st resp pending).map ctrl) := by
  refine ⟨?_, processSettled_records_append, ?_⟩
  · intro env req iter idx tc tool args msg h1 h2 h3
    simp [execOneToolCall, h1, h2, h3]
  · intro ctx1 ctx2 fuel st resp pending
    rw [runLoop_ctrl, runLoop_ctrl]

/-- Environment of the C6 witness: every tool invocation throws. -/
def envC6 : ExecEnv := { baseEnv with execTool := fun _ _ => .error "boom" }

/-- C6 witness: a concrete throwing invocation settles as a structured
failure. -/
theorem C6_witness :
    execOneToolCall envC6 reqTwoTools 0 0 tcA = some
      { toolCallId := "c1", toolName := "a", toolParams := ""
        result := { success := false, output := none, error := some "boom" }
        startTime := 0, endTime := 10, duration := 10 } :=
  C6_theorem.1 envC6 reqTwoTools 0 0 tcA toolDefA "args" "boom" rfl (by decide) rfl

/-! ## C7 -/

/-- C7 (confirmed).  When the script is N responses with tool calls
followed by a clean one (N below the cap), a configured non-streaming
run succeeds, executes exactly N tool batches, consumes exactly N + 1
responses (exiting on the first response with zero tool calls), reports
N + 1 iterations, and records exactly N + 1 model TimeSegments. -/
theorem C7_theorem (env : ExecEnv) (req : ProviderRequest) (ts : List ModelResponse)
    (fin : ModelResponse) (rest : List ModelResponse)
    (hb : resolvedBaseUrl env req ≠ "") (hs : req.stream = false)
    (hr : env.responses = ts ++ fin :: rest)
    (hts : ∀ r ∈ ts, respToolCalls r ≠ []) (hfin : respToolCalls fin = [])
    (hN : ts.length < MAX_TOOL_ITERATIONS) :
    okB (executeRequest env req) = true ∧
    iterationsOf (executeRequest env req) = ts.length ∧
    consumedOf (executeRequest env req) = ts.length + 1 ∧
    (bufferedOf (executeRequest env req)).map (fun r => r.timing.iterations) =
      some (ts.length + 1) ∧
    (stateOf (executeRequest env req)).map (fun st => modelSegCount st.timeSegments) =
      some (ts.length + 1) := by
  cases hch : ts ++ fin :: rest with
  | nil => exact absurd hch (List.append_ne_nil_of_right_ne_nil ts (by simp))
  | cons r0 pend =>
    have hr0 : env.responses = r0 :: pend := by rw [hr, hch]
    have hEq := executeRequest_buffered env req r0 pend hb hs hr0
    have hctrl := runLoop_ctrl (initCtx env req) MAX_TOOL_ITERATIONS
      (initState env req r0) r0 pend
    have hchain := loopCtrl_chain ts fin rest (0, 1) MAX_TOOL_ITERATIONS r0 pend
      hch.symm hN hts hfin
    have hcs : ctrl (initState env req r0) = (0, 1) := rfl
    rw [hcs, hchain] at hctrl
    cases hrl : runLoop (initCtx env req) MAX_TOOL_ITERATIONS (initState env req r0)
        r0 pend with
    | error e => rw [hrl] at hctrl; simp [Except.map] at hctrl
    | ok stF =>
      rw [hrl] at hctrl
      simp only [Except.map] at hctrl
      injection hctrl with hc
      have hic : stF.iterationCount = ts.length := by
        have := congrArg Prod.fst hc
        simpa [ctrl] using this
      have hrc : stF.responsesConsumed = ts.length + 1 := by
        have := congrArg Prod.snd hc
        simp [ctrl] at this
        omega
      have hms := runLoop_modelSegs (initCtx env req) MAX_TOOL_ITERATIONS
        (initState env req r0) r0 pend stF hrl
      have hminit : modelSegCount (initState env req r0).timeSegments = 1 := rfl
      have hiinit : (initState env req r0).iterationCount = 0 := rfl
      have hmsF : modelSegCount stF.timeSegments = ts.length + 1 := by
        rw [hminit, hiinit, hic] at hms
        omega
      rw [hEq, hrl]
      refine ⟨rfl, hic, hrc, ?_, ?_⟩
      · show some (stF.iterationCount + 1) = some (ts.length + 1)
        rw [hic]
      · show some (modelSegCount stF.timeSegments) = some (ts.length + 1)
        rw [hmsF]

/-- Environment of the C7 witness: one tool round then a clean response. -/
def envC7 : ExecEnv := { baseEnv with responses := [respTools, respClean] }

/-- C7 witness: the statement at a concrete N = 1 run. -/
theorem C7_witness :
    okB (executeRequest envC7 reqTwoTools) = true ∧
    iterationsOf (executeRequest envC7 reqTwoTools) = 1 ∧
    consumedOf (executeRequest envC7 reqTwoTools) = 2 ∧
    (bufferedOf (executeRequest envC7 reqTwoTools)).map (fun r => r.timing.iterations) =
      some 2 ∧
    (stateOf (executeRequest envC7 reqTwoTools)).map
        (fun st => modelSegCount st.timeSegments) = some 2 :=
  C7_theorem envC7 reqTwoTools [respTools] respClean [] (by decide) rfl rfl
    (by decide) (by decide) (by decide)

/-! ## C8 -/

/-- C8 (confirmed).  For every request and every environment — in
particular even when the last consumed response still contains tool
calls — the tool loop performs at most `MAX_TOOL_ITERATIONS` passes. -/
theorem C8_theorem (env : ExecEnv) (req : ProviderRequest) :
    iterationsOf (executeRequest env req) ≤ MAX_TOOL_ITERATIONS := by
  cases hE : executeRequest env req with
  | error e => simp [iterationsOf]
  | ok p =>
    obtain ⟨out, stF⟩ := p
    rcases executeRequest_ok_state env req out stF hE with hfastc | ⟨r0, rest, hr, hrl⟩
    · subst hfastc
      show (0 : Nat) ≤ MAX_TOOL_ITERATIONS
      decide
    · have hctrl := runLoop_ctrl (initCtx env req) MAX_TOOL_ITERATIONS
        (initState env req r0) r0 rest
      rw [hrl] at hctrl
      simp only [Except.map] at hctrl
      have hbound := loopCtrl_bound MAX_TOOL_ITERATIONS (ctrl (initState env req r0))
        r0 rest (ctrl stF) hctrl.symm
      have h0 : (ctrl (initState env req r0)).1 = 0 := rfl
      have hfin : stF.iterationCount ≤ MAX_TOOL_ITERATIONS := by
        have hb1 := hbound.1
        rw [h0] at hb1
        simpa [ctrl] using hb1
      exact hfin

/-! ## C9 -/

/-- C9 (confirmed; the blacklist helpers are modelled from the spec).
The `/models` route always answers with status 200: the empty model list
when the provider is blacklisted, the base endpoint is unconfigured, the
upstream fetch throws, or the upstream answers with a non-success status;
and on success exactly the blacklist-filtered list of upstream ids, each
prefixed with `litellm/`. -/
theorem C9_theorem (env : RouteEnv) :
    (GETmodels env).status = 200 ∧
    (env.providerBlacklisted = true → (GETmodels env).models = []) ∧
    (stripSlash (jsOrS env.baseUrlEnv "") = "" → (GETmodels env).models = []) ∧
    (∀ e, env.fetchResult = .error e → (GETmodels env).models = []) ∧
    (∀ f, env.fetchResult = .ok f → f.ok = false → (GETmodels env).models = []) ∧
    (∀ f, env.fetchResult = .ok f → f.ok = true → env.providerBlacklisted = false →
      stripSlash (jsOrS env.baseUrlEnv "") ≠ "" →
      (GETmodels env).models =
        filterBlacklistedModels env.modelBlacklist
          (f.ids.map (fun id => "litellm/" ++ id)) ∧
      ∀ m ∈ (GETmodels env).models, ∃ id, id ∈ f.ids ∧ m = "litellm/" ++ id) := by
  refine ⟨?_, ?_, ?_, ?_, ?_, ?_⟩
  · rcases hfr : env.fetchResult with e | f
    · cases hbl : env.providerBlacklisted <;>
        by_cases hbase : stripSlash (jsOrS env.baseUrlEnv "") = "" <;>
        simp [GETmodels, hbl, hbase, hfr]
    · cases hbl : env.providerBlacklisted <;>
        by_cases hbase : stripSlash (jsOrS env.baseUrlEnv "") = "" <;>
        cases hok : f.ok <;>
        simp [GETmodels, hbl, hbase, hfr, hok]
  · intro h
    simp [GETmodels, h]
  · intro h
    cases hbl : env.providerBlacklisted <;> simp [GETmodels, hbl, h]
  · intro e he
    cases hbl : env.providerBlacklisted <;>
      by_cases hbase : stripSlash (jsOrS env.baseUrlEnv "") = "" <;>
      simp [GETmodels, hbl, hbase, he]
  · intro f hfr hok
    cases hbl : env.providerBlacklisted <;>
      by_cases hbase : stripSlash (jsOrS env.baseUrlEnv "") = "" <;>
      simp [GETmodels, hbl, hbase, hfr, hok]
  · intro f hfr hok hbl hbase
    have hmodels : (GETmodels env).models =
        filterBlacklistedModels env.modelBlacklist
          (f.ids.map (fun id => "litellm/" ++ id)) := by
      simp [GETmodels, hbl, hbase, hfr, hok]
    refine ⟨hmodels, ?_⟩
    intro m hm
    rw [hmodels] at hm
    have hmap : m ∈ f.ids.map (fun id => "litellm/" ++ id) :=
      (List.mem_filter.1 hm).1
    obtain ⟨id, hid, heq⟩ := List.mem_map.1 hmap
    exact ⟨id, hid, heq.symm⟩

/-- Route environment of the C9 witness: upstream answers HTTP 503. -/
def envR503 : RouteEnv :=
  { providerBlacklisted := false, modelBlacklist := []
    baseUrlEnv := some "http://litellm.local", apiKeyEnv := none
    fetchResult := .ok { ok := false, status := 503, ids := [] } }

/-- C9 witness: on an upstream 503 the route answers 200 with an empty
list. -/
theorem C9_witness :
    (GETmodels envR503).status = 200 ∧ (GETmodels envR503).models = [] := by
  have h := C9_theorem envR503
  exact ⟨h.1, h.2.2.2.2.1 { ok := false, status := 503, ids := [] } rfl rfl⟩

end LiteLLM
